import Mathlib

/-!
Verification development for the incremental Reddit sentiment-analysis
pipeline.  The definitions below are shallow embeddings of the Python
source files:

* `backend/app/sentiment_analyzer.py` — text cleaning (`deEmojify`,
  `clean_text`), the lexicon scorers (`analyze_emotion`,
  `analyze_hate_speech`), score normalization (`normalize_scores`) and
  the per-item driver (`analyze_text`);
* `backend/app/sentiment.py` — the alternative `clean_text` / `normalize`
  variant;
* `backend/app/models.py` — the `PostSentiment` / `CommentSentiment`
  tables (unique constraint on the item-id column);
* `scripts/init_sentiment.py` and
  `airflow/dags/enhanced_sentiment_dag.py` — the backfill orchestrators
  (anti-join fetch, paged loop, per-item exception isolation, per-page
  commit, top-category selection via Python `max`).

Python dictionaries are embedded as insertion-ordered association lists
`List (String × ℚ)`; floating-point arithmetic is embedded as exact
rational arithmetic; machine calls to external models (RoBERTa, VADER,
spaCy) are parameters of the embedded functions.
-/

namespace RedditSentiment

/-! ### Character classes (backend/app/sentiment_analyzer.py) -/

/-- The whitespace class of Python's `\s` / `str.split()` / `str.strip()`
(ASCII part): space, tab, newline, carriage return, vertical tab, form feed. -/
def isWS (c : Char) : Bool :=
  c = ' ' || c = '\t' || c = '\n' || c = '\r' || c = '\x0b' || c = '\x0c'

/-- The four emoji code-point ranges removed by `deEmojify`
(`U+1F600–U+1F64F`, `U+1F300–U+1F5FF`, `U+1F680–U+1F6FF`, `U+1F1E0–U+1F1FF`). -/
def isEmoji (c : Char) : Bool :=
  (0x1F600 ≤ c.val && c.val ≤ 0x1F64F) ||
  (0x1F300 ≤ c.val && c.val ≤ 0x1F5FF) ||
  (0x1F680 ≤ c.val && c.val ≤ 0x1F6FF) ||
  (0x1F1E0 ≤ c.val && c.val ≤ 0x1F1FF)

/-- `deEmojify`: `re.sub("[<emoji ranges>]+", "", text)`, i.e. remove every
character lying in one of the four ranges. -/
def deEmojify (l : List Char) : List Char := l.filter (fun c => !isEmoji c)

/-! ### The regex substitutions of `clean_text`

Each of the following scanners embeds one `re.sub` call, scanning left to
right, replacing the leftmost match by the replacement text (which is never
rescanned) and continuing after the match, exactly as `re.sub` does. -/

theorem length_dropWhile_le (p : Char → Bool) (l : List Char) :
    (l.dropWhile p).length ≤ l.length := by
  induction l with
  | nil => simp [List.dropWhile]
  | cons c cs ih =>
    by_cases h : p c
    · simpa [List.dropWhile, h] using Nat.le_succ_of_le ih
    · simp [List.dropWhile, h]

/-- `re.sub(r"#\S+", "", ·)`: a `#` followed by at least one non-whitespace
character is removed together with the maximal non-whitespace run after it. -/
def subHash : List Char → List Char
  | [] => []
  | c :: cs =>
    if c = '#' ∧ cs.takeWhile (fun d => !isWS d) ≠ [] then
      subHash (cs.dropWhile (fun d => !isWS d))
    else
      c :: subHash cs
termination_by l => l.length
decreasing_by
  · exact Nat.lt_succ_of_le (length_dropWhile_le _ _)
  · exact Nat.lt_succ_self _

/-- `re.sub(r"@\S+", "@person", ·)`: an `@` followed by at least one
non-whitespace character is replaced, with its non-whitespace run, by the
fixed placeholder `"@person"`. -/
def subAt : List Char → List Char
  | [] => []
  | c :: cs =>
    if c = '@' ∧ cs.takeWhile (fun d => !isWS d) ≠ [] then
      '@' :: 'p' :: 'e' :: 'r' :: 's' :: 'o' :: 'n' :: subAt (cs.dropWhile (fun d => !isWS d))
    else
      c :: subAt cs
termination_by l => l.length
decreasing_by
  · exact Nat.lt_succ_of_le (length_dropWhile_le _ _)
  · exact Nat.lt_succ_self _

/-- `re.sub(r"@\S+", "", ·)`: the variant used on the lemmatization path,
which removes mentions instead of placeholding them. -/
def subAtDel : List Char → List Char
  | [] => []
  | c :: cs =>
    if c = '@' ∧ cs.takeWhile (fun d => !isWS d) ≠ [] then
      subAtDel (cs.dropWhile (fun d => !isWS d))
    else
      c :: subAtDel cs
termination_by l => l.length
decreasing_by
  · exact Nat.lt_succ_of_le (length_dropWhile_le _ _)
  · exact Nat.lt_succ_self _

/-- `re.sub(" +", " ", ·)`: a maximal run of one or more space characters
(only `' '`, not general whitespace) is replaced by a single space. -/
def subSpaces : List Char → List Char
  | [] => []
  | c :: cs =>
    if c = ' ' then
      ' ' :: subSpaces (cs.dropWhile (fun d => d = ' '))
    else
      c :: subSpaces cs
termination_by l => l.length
decreasing_by
  · exact Nat.lt_succ_of_le (length_dropWhile_le _ _)
  · exact Nat.lt_succ_self _

/-- `re.sub(r"http\S+", "http", ·)`: at a position starting with the literal
`http` followed by at least one non-whitespace character, that literal and
the maximal non-whitespace run after it are replaced by `http`; at any other
position the scanner advances one character, exactly like `re.sub`. -/
def subHttp : List Char → List Char
  | [] => []
  | c :: cs =>
    if c = 'h' ∧ cs.take 3 = ['t', 't', 'p'] ∧
        (cs.drop 3).takeWhile (fun d => !isWS d) ≠ [] then
      'h' :: 't' :: 't' :: 'p' :: subHttp ((cs.drop 3).dropWhile (fun d => !isWS d))
    else
      c :: subHttp cs
termination_by l => l.length
decreasing_by
  · have h1 := length_dropWhile_le (fun d => !isWS d) (cs.drop 3)
    have h2 : (cs.drop 3).length ≤ cs.length := by
      simp only [List.length_drop]
      omega
    simp only [List.length_cons]
    omega
  · exact Nat.lt_succ_self _

/-- The clean-form pipeline of `sentiment_analyzer.clean_text`, in source
order: hashtags removed, mentions placeholded, space runs collapsed, URLs
collapsed.  Note: no emoji stripping and no trimming happen on this path. -/
def clean_chars (l : List Char) : List Char :=
  subHttp (subSpaces (subAt (subHash l)))

/-- Python `str.split()` (no separator): split on maximal whitespace runs,
dropping empty tokens. -/
def pySplit : List Char → List (List Char)
  | [] => []
  | c :: cs =>
    if isWS c then
      pySplit cs
    else
      (c :: cs.takeWhile (fun d => !isWS d)) :: pySplit (cs.dropWhile (fun d => !isWS d))
termination_by l => l.length
decreasing_by
  · exact Nat.lt_succ_self _
  · exact Nat.lt_succ_of_le (length_dropWhile_le _ _)

/-- The `CleanedText` result of `clean_text`. -/
structure CleanedText where
  clean : List Char
  lemma_text : String
  char_count : Nat
  word_count : Nat
deriving Repr, DecidableEq

/-- `sentiment_analyzer.clean_text`.  The spaCy pipeline (tokenize +
lemmatize + join) is an external model, passed in as the parameter
`nlpLemma`; everything else follows the source: the clean form is
`clean_chars`, the lemma input is the clean form with mentions removed and
emoji stripped, and both counts are computed on the clean form. -/
def clean_text (nlpLemma : List Char → String) (text : List Char) : CleanedText :=
  let clean := clean_chars text
  { clean := clean
    lemma_text := nlpLemma (deEmojify (subAtDel clean))
    char_count := clean.length
    word_count := (pySplit clean).length }

/-! ### VADER and keyword counting (backend/app/sentiment_analyzer.py)

`sia.polarity_scores` is an external model (NLTK VADER); it enters the
embedding as a parameter of type `List Char → Vader`.  Keyword counting
embeds `len(re.findall(r"\b" + kw + r"\b", text.lower()))`: since every
lexicon keyword is a run of word characters, the whole-word matches of a
keyword are exactly the maximal word-character runs equal to it. -/

/-- The four scores returned by `sia.polarity_scores`. -/
structure Vader where
  pos : ℚ
  neg : ℚ
  neu : ℚ
  compound : ℚ
deriving Repr, DecidableEq

/-- The word-character class of the regex `\b` boundary (ASCII `\w`). -/
def isWordChar (c : Char) : Bool := c.isAlpha || c.isDigit || c = '_'

/-- Maximal runs of word characters in a character list. -/
def wordRuns : List Char → List (List Char)
  | [] => []
  | c :: cs =>
    if isWordChar c then
      (c :: cs.takeWhile isWordChar) :: wordRuns (cs.dropWhile isWordChar)
    else
      wordRuns cs
termination_by l => l.length
decreasing_by
  · exact Nat.lt_succ_of_le (length_dropWhile_le _ _)
  · exact Nat.lt_succ_self _

/-- Number of whole-word occurrences of keyword `kw` in the lowercased text. -/
def kwCount (text : List Char) (kw : String) : Nat :=
  (wordRuns (text.map Char.toLower)).count kw.data

/-- One category's count: the sum over its keywords of their whole-word
occurrence counts (the `emotion_counts[emotion] += len(matches)` loop). -/
def categoryCount (text : List Char) (kws : List String) : Nat :=
  kws.foldl (fun acc kw => acc + kwCount text kw) 0

/-! ### The emotion scorer (`analyze_emotion`) -/

def joy_keywords : List String :=
  ["happy", "joy", "delighted", "thrilled", "excited", "glad", "pleased",
   "satisfied", "great", "amazing", "awesome", "excellent", "love",
   "wonderful", "fantastic"]

def sadness_keywords : List String :=
  ["sad", "unhappy", "depressed", "miserable", "gloomy", "disappointed",
   "upset", "distressed", "sorry", "regret", "grief", "heartbroken",
   "lonely", "tragic", "cry"]

def anger_keywords : List String :=
  ["angry", "mad", "furious", "outraged", "irritated", "annoyed",
   "frustrated", "rage", "hate", "hostile", "bitter", "resentful",
   "infuriated", "threatened", "offensive"]

def fear_keywords : List String :=
  ["afraid", "scared", "frightened", "terrified", "nervous", "anxious",
   "worried", "panic", "horror", "shock", "alarmed", "dread", "terror",
   "apprehensive", "concern"]

def surprise_keywords : List String :=
  ["surprised", "amazed", "astonished", "shocked", "stunned", "startled",
   "unexpected", "wow", "incredible", "unbelievable", "remarkable",
   "extraordinary", "strange"]

def other_keywords : List String :=
  ["neutral", "calm", "balanced", "okay", "fine", "normal", "standard",
   "regular", "typical", "common", "usual", "routine", "everyday"]

/-- The `emotion_counts` dictionary, with the dict's insertion order fixed by
the field order joy, sadness, anger, fear, surprise, other. -/
structure EmotionCounts where
  joy : ℚ
  sadness : ℚ
  anger : ℚ
  fear : ℚ
  surprise : ℚ
  other : ℚ
deriving Repr, DecidableEq

/-- The raw keyword counts of `analyze_emotion` before valence adjustment. -/
def emotion_base (text : List Char) : EmotionCounts :=
  { joy := (categoryCount text joy_keywords : ℚ)
    sadness := (categoryCount text sadness_keywords : ℚ)
    anger := (categoryCount text anger_keywords : ℚ)
    fear := (categoryCount text fear_keywords : ℚ)
    surprise := (categoryCount text surprise_keywords : ℚ)
    other := (categoryCount text other_keywords : ℚ) }

/-- The valence adjustment of `analyze_emotion` (Python floats `0.05` and
`0.8` embedded as the exact rationals `1/20` and `4/5`). -/
def emotion_adjusted (text : List Char) (v : Vader) : EmotionCounts :=
  let c := emotion_base text
  if 1/20 ≤ v.compound then
    { c with
      joy := max c.joy 1 * (1 + v.pos)
      sadness := c.sadness * (4/5)
      anger := c.anger * (4/5)
      fear := c.fear * (4/5) }
  else if v.compound ≤ -(1/20) then
    { c with
      sadness := max c.sadness 1 * (1 + v.neg)
      anger := max c.anger 1 * (1 + v.neg)
      fear := max c.fear 1 * (1 + v.neg)
      joy := c.joy * (4/5) }
  else
    { c with other := max c.other 1 * (1 + v.neu) }

/-- `sum(emotion_counts.values())` after adjustment. -/
def emotion_total_raw (text : List Char) (v : Vader) : ℚ :=
  let c := emotion_adjusted text v
  c.joy + c.sadness + c.anger + c.fear + c.surprise + c.other

/-- `analyze_emotion`, returning the probability dictionary in its insertion
order.  `sia` is the external VADER model. -/
def analyze_emotion (sia : List Char → Vader) (text : List Char) :
    List (String × ℚ) :=
  let v := sia text
  let c := emotion_adjusted text v
  let total0 := emotion_total_raw text v
  let total := if total0 = 0 then 1 else total0
  [("joy", c.joy / total), ("sadness", c.sadness / total),
   ("anger", c.anger / total), ("fear", c.fear / total),
   ("surprise", c.surprise / total), ("other", c.other / total)]

/-! ### The hate-speech scorer (`analyze_hate_speech`) -/

def hateful_keywords : List String :=
  ["hate", "despise", "loathe", "detest", "abhor"]

def offensive_keywords : List String :=
  ["offensive", "insult", "rude", "vulgar", "crude", "profane"]

def targeted_hate_keywords : List String :=
  ["racist", "sexist", "bigot", "discriminate", "prejudice"]

def none_keywords : List String :=
  ["respectful", "polite", "civil", "friendly", "kind", "nice"]

/-- The `hate_counts` dictionary (insertion order hateful, offensive,
targeted_hate, none; the `none` key is the field `noneCat`). -/
structure HateCounts where
  hateful : ℚ
  offensive : ℚ
  targeted_hate : ℚ
  noneCat : ℚ
deriving Repr, DecidableEq

/-- Raw keyword counts of `analyze_hate_speech`. -/
def hate_base (text : List Char) : HateCounts :=
  { hateful := (categoryCount text hateful_keywords : ℚ)
    offensive := (categoryCount text offensive_keywords : ℚ)
    targeted_hate := (categoryCount text targeted_hate_keywords : ℚ)
    noneCat := (categoryCount text none_keywords : ℚ) }

/-- The negativity/positivity adjustment of `analyze_hate_speech`. -/
def hate_adjusted (text : List Char) (v : Vader) : HateCounts :=
  let c := hate_base text
  { hateful := c.hateful * (1 + v.neg)
    offensive := c.offensive * (1 + v.neg)
    targeted_hate := c.targeted_hate * (1 + v.neg)
    noneCat := c.noneCat * (1 + v.pos) + (1 - v.neg) }

/-- `sum(hate_counts.values())` at the point of the low-signal test. -/
def hate_total_preforce (text : List Char) (v : Vader) : ℚ :=
  let c := hate_adjusted text v
  c.hateful + c.offensive + c.targeted_hate + c.noneCat

/-- The low-signal forcing step: if the adjusted total is below `0.5`, the
`none` count is forced to `1.0`. -/
def hate_forced (text : List Char) (v : Vader) : HateCounts :=
  let c := hate_adjusted text v
  if hate_total_preforce text v < 1/2 then { c with noneCat := 1 } else c

/-- `analyze_hate_speech`, returning the probability dictionary in its
insertion order. -/
def analyze_hate_speech (sia : List Char → Vader) (text : List Char) :
    List (String × ℚ) :=
  let v := sia text
  let c := hate_forced text v
  let total0 := c.hateful + c.offensive + c.targeted_hate + c.noneCat
  let total := if total0 = 0 then 1 else total0
  [("hateful", c.hateful / total), ("offensive", c.offensive / total),
   ("targeted_hate", c.targeted_hate / total), ("none", c.noneCat / total)]

/-! ### Score normalization and top-label selection -/

/-- `sentiment_analyzer.normalize_scores`: divide each value by the word
count — but when `word_count == 0` the input dictionary is returned
unchanged. -/
def normalize_scores (scores : List (String × ℚ)) (word_count : Nat) :
    List (String × ℚ) :=
  if word_count = 0 then scores
  else scores.map (fun kv => (kv.1, kv.2 / (word_count : ℚ)))

/-- `sentiment.normalize`: the dict comprehension
`{k: v / wordcount for k, v in sentiment.items() if wordcount > 0}` — the
filter condition does not mention `k`/`v`, so the result is the full mapped
dictionary when `wordcount > 0` and the empty dictionary otherwise. -/
def normalize (sentiment : List (String × ℚ)) (wordcount : Nat) :
    List (String × ℚ) :=
  if 0 < wordcount then
    sentiment.map (fun kv => (kv.1, kv.2 / (wordcount : ℚ)))
  else []

/-- The loop of Python's builtin `max(items, key=...)`: keep the current
best, replacing it only when a later element is strictly greater, so the
first of several tied maxima wins. -/
def bestFrom : (String × ℚ) → List (String × ℚ) → (String × ℚ)
  | b, [] => b
  | b, kv :: rest => bestFrom (if b.2 < kv.2 then kv else b) rest

/-- `max(d.items(), key=lambda x: x[1] ..., default=("unknown", 0))[0]` as
used by both backfill orchestrators.  (The `x[1] if x[1] is not None else 0`
key is the score itself: no score in the embedded pipeline is `None`.) -/
def top_category (d : List (String × ℚ)) : String :=
  match d with
  | [] => "unknown"
  | x :: xs => (bestFrom x xs).1

/-! ### The per-item driver (`analyze_text`) and the persisted record -/

/-- The guard `if not text or text.strip() == ""`: true exactly when the
text is empty or consists of whitespace only. -/
def pyStripEmpty (text : List Char) : Bool := text.all isWS

/-- The dictionary returned by `analyze_text`. -/
structure AnalysisResults where
  cleaned : CleanedText
  sentiment : List (String × ℚ)
  normalized_sentiment : List (String × ℚ)
  emotion : List (String × ℚ)
  normalized_emotion : List (String × ℚ)
  hate_speech : List (String × ℚ)
  normalized_hate_speech : List (String × ℚ)
deriving Repr, DecidableEq

/-- The zeroed result of the empty-text short circuit. -/
def emptyAnalysis : AnalysisResults :=
  { cleaned := { clean := [], lemma_text := "", char_count := 0, word_count := 0 }
    sentiment := []
    normalized_sentiment := []
    emotion := []
    normalized_emotion := []
    hate_speech := []
    normalized_hate_speech := [] }

/-- `analyze_text`: empty-text short circuit, cleaning, the three scorers
(the RoBERTa model `roberta` and VADER `sia` are external parameters; the
emotion and hate scorers are the embedded lexicon functions), and
word-count normalization of each raw distribution. -/
def analyze_text (roberta : List Char → List (String × ℚ))
    (sia : List Char → Vader) (nlpLemma : List Char → String)
    (text : List Char) : AnalysisResults :=
  if pyStripEmpty text then emptyAnalysis
  else
    let cleaned := clean_text nlpLemma text
    let sentiment_scores := roberta cleaned.clean
    let emotion_scores := analyze_emotion sia cleaned.clean
    let hate_speech_scores := analyze_hate_speech sia cleaned.clean
    { cleaned := cleaned
      sentiment := sentiment_scores
      normalized_sentiment := normalize_scores sentiment_scores cleaned.word_count
      emotion := emotion_scores
      normalized_emotion := normalize_scores emotion_scores cleaned.word_count
      hate_speech := hate_speech_scores
      normalized_hate_speech := normalize_scores hate_speech_scores cleaned.word_count }

/-- A raw corpus item (a post with its title, or a comment with its body). -/
structure RawItem where
  id : Nat
  text : List Char
  created_utc : Int
deriving Repr, DecidableEq

/-- The `PostSentiment` / `CommentSentiment` row (models.py), as staged by
the per-item body of `init_sentiment.analyze_posts`. -/
structure SentimentRecord where
  item_id : Nat
  clean_text : List Char
  lemma_text : String
  char_count : Nat
  word_count : Nat
  sentiment_scores : List (String × ℚ)
  emotion_scores : List (String × ℚ)
  hate_speech_scores : List (String × ℚ)
  normalized_sentiment : List (String × ℚ)
  normalized_emotion : List (String × ℚ)
  normalized_hate_speech : List (String × ℚ)
  top_sentiment : String
  top_emotion : String
  top_hate_category : String
  created_utc : Int
  analyzed_utc : Int
deriving Repr, DecidableEq

/-- The record constructed for one item by the backfill's per-item body
(`init_sentiment.analyze_posts`, identically `analyze_comments` and the two
DAG tasks): run `analyze_text`, select the three top categories with
`max(..., default=("unknown", 0))`, and fill the row. -/
def buildRecord (roberta : List Char → List (String × ℚ))
    (sia : List Char → Vader) (nlpLemma : List Char → String)
    (current_time : Int) (item : RawItem) : SentimentRecord :=
  let r := analyze_text roberta sia nlpLemma item.text
  { item_id := item.id
    clean_text := r.cleaned.clean
    lemma_text := r.cleaned.lemma_text
    char_count := r.cleaned.char_count
    word_count := r.cleaned.word_count
    sentiment_scores := r.sentiment
    emotion_scores := r.emotion
    hate_speech_scores := r.hate_speech
    normalized_sentiment := r.normalized_sentiment
    normalized_emotion := r.normalized_emotion
    normalized_hate_speech := r.normalized_hate_speech
    top_sentiment := top_category r.sentiment
    top_emotion := top_category r.emotion
    top_hate_category := top_category r.hate_speech
    created_utc := item.created_utc
    analyzed_utc := current_time }

/-- The per-item loop over one fetched page with its `try/except`: the body
(analysis plus record construction) of each item runs under a broad
`except` that logs and continues, so an item whose analysis raises stages
no record and the loop always reaches the end of the page.  `analyzeItem`
returns `none` exactly when the Python body would raise. -/
def processPage (analyzeItem : RawItem → Option SentimentRecord)
    (page : List RawItem) : List SentimentRecord :=
  page.filterMap analyzeItem

/-! ### The backfill orchestrators (`scripts/init_sentiment.py`)

For the paging/idempotence claims only record *existence* matters, so the
store is embedded as the list of item ids (in the `created_utc desc` fetch
order) together with the list of item ids holding an analysis record.
`fetchPage` embeds the anti-join query
`session.query(Post).outerjoin(PostSentiment).filter(PostSentiment.id ==
None).order_by(...).limit(batch_size).offset(offset)`; the loop commits
after every page and advances `offset` by `batch_size`. -/

/-- The corpus store: item ids in fetch order, and the ids that have an
analysis record (`post_sentiments.post_id` / `comment_sentiments.comment_id`). -/
structure Corpus where
  items : List Nat
  recs : List Nat
deriving Repr, DecidableEq

/-- The ids returned by the anti-join filter: items with no analysis record. -/
def unanalyzed (s : Corpus) : List Nat :=
  s.items.filter (fun i => !s.recs.contains i)

/-- One `limit/offset` page of the anti-join query. -/
def fetchPage (s : Corpus) (limit offset : Nat) : List Nat :=
  ((unanalyzed s).drop offset).take limit

/-- The page loop of `analyze_posts`: fetch a page, break when it is empty,
otherwise stage and commit a record for every item of the page and advance
the offset by the batch size.  `fuel` bounds the number of iterations; the
entry point supplies enough fuel for the loop to reach its break. -/
def pageLoop : Nat → Nat → Nat → Corpus → Corpus
  | 0, _, _, s => s
  | fuel + 1, b, offset, s =>
    let page := fetchPage s b offset
    if page = [] then s
    else pageLoop fuel b (offset + b) { s with recs := s.recs ++ page }

/-- `init_sentiment.analyze_posts(batch_size)`. One iteration per nonempty
page adds at least one record for a previously-unanalyzed item, so
`items.length + 1` iterations always reach the empty-page break. -/
def analyze_posts_run (batch_size : Nat) (s : Corpus) : Corpus :=
  pageLoop (s.items.length + 1) batch_size 0 s

/-- The page loop of `analyze_comments`, whose `while offset <
total_comments` header also stops once the offset reaches the (capped)
up-front count. -/
def pageLoopC : Nat → Nat → Nat → Nat → Corpus → Corpus
  | 0, _, _, _, s => s
  | fuel + 1, b, offset, total, s =>
    if offset < total then
      let page := fetchPage s b offset
      if page = [] then s
      else pageLoopC fuel b (offset + b) total { s with recs := s.recs ++ page }
    else s

/-- `init_sentiment.analyze_comments(batch_size, max_comments)`: the
up-front count is capped at `max_comments` and a zero count returns
immediately. -/
def analyze_comments_run (batch_size max_comments : Nat) (s : Corpus) : Corpus :=
  let total := min (unanalyzed s).length max_comments
  if total = 0 then s
  else pageLoopC (s.items.length + 1) batch_size 0 total s

/-- Insertion of one analysis record at the storage boundary: the
`unique=True` constraint on `post_sentiments.post_id` /
`comment_sentiments.comment_id` (models.py) rejects a second record for the
same item id. -/
def insertRecord (s : Corpus) (i : Nat) : Option Corpus :=
  if s.recs.contains i then none
  else some { s with recs := s.recs ++ [i] }

/-- The states the store can reach: starting empty, the harvester may insert
a new item (fresh id, anywhere in the `created_utc desc` order), and the
backfill entry points may run — completely, or interrupted after any number
of committed pages (`pageLoop`/`pageLoopC` with arbitrary fuel: work of
uncommitted pages is lost, committed pages persist). -/
inductive Reachable : Corpus → Prop
  | init : Reachable ⟨[], []⟩
  | addItem (pre post : List Nat) (recs : List Nat) (i : Nat) :
      Reachable ⟨pre ++ post, recs⟩ → i ∉ pre ++ post →
      Reachable ⟨pre ++ i :: post, recs⟩
  | backfillPosts (b : Nat) (s : Corpus) :
      Reachable s → Reachable (analyze_posts_run b s)
  | backfillPostsPartial (fuel b offset : Nat) (s : Corpus) :
      Reachable s → Reachable (pageLoop fuel b offset s)
  | backfillComments (b maxc : Nat) (s : Corpus) :
      Reachable s → Reachable (analyze_comments_run b maxc s)
  | backfillCommentsPartial (fuel b offset total : Nat) (s : Corpus) :
      Reachable s → Reachable (pageLoopC fuel b offset total s)

/-- The store invariant: item ids are pairwise distinct (primary key),
record ids are pairwise distinct, and every record references an item. -/
def CorpusInv (s : Corpus) : Prop :=
  s.items.Nodup ∧ s.recs.Nodup ∧ ∀ i ∈ s.recs, i ∈ s.items

/-! ## Supporting lemmas for top-label selection (C6)

`specTopLabel` is written from the spec's words — "the first entry
encountered in the distribution's natural iteration order whose score
equals the maximum; `"unknown"` for the empty distribution" — so that the
embedded Python `max` loop can be compared against it. -/

/-- The maximum score of a distribution, folded from a starting value. -/
def runningMax (b : ℚ) (l : List (String × ℚ)) : ℚ :=
  l.foldl (fun m kv => max m kv.2) b

/-- The test "this entry's score equals the maximum `m`". -/
def isMaxP (m : ℚ) : (String × ℚ) → Bool := fun e => e.2 = m

/-- The spec's description of top-label selection: the first entry, in
iteration order, whose score equals the maximum of all scores; `"unknown"`
on the empty distribution. -/
def specTopLabel : List (String × ℚ) → String
  | [] => "unknown"
  | x :: xs => (((x :: xs).find? (isMaxP (runningMax x.2 xs))).getD x).1

theorem le_runningMax (b : ℚ) (l : List (String × ℚ)) : b ≤ runningMax b l := by
  induction l generalizing b with
  | nil => exact le_refl b
  | cons kv rest ih =>
    exact le_trans (le_max_left b kv.2) (ih (max b kv.2))

theorem runningMax_cons (b : ℚ) (kv : String × ℚ) (l : List (String × ℚ)) :
    runningMax b (kv :: l) = runningMax (max b kv.2) l := rfl

theorem bestFrom_snd (b : String × ℚ) (l : List (String × ℚ)) :
    (bestFrom b l).2 = runningMax b.2 l := by
  induction l generalizing b with
  | nil => rfl
  | cons kv rest ih =>
    show (bestFrom (if b.2 < kv.2 then kv else b) rest).2 = _
    rw [ih, runningMax_cons]
    by_cases h : b.2 < kv.2
    · simp [h, max_eq_right (le_of_lt h)]
    · simp [h, max_eq_left (le_of_not_lt h)]

theorem bestFrom_of_max (b : String × ℚ) (l : List (String × ℚ))
    (h : b.2 = runningMax b.2 l) : bestFrom b l = b := by
  induction l generalizing b with
  | nil => rfl
  | cons kv rest ih =>
    rw [runningMax_cons] at h
    have hle : ¬ b.2 < kv.2 := by
      intro hlt
      have h1 : max b.2 kv.2 ≤ runningMax (max b.2 kv.2) rest := le_runningMax _ _
      have h2 : kv.2 ≤ max b.2 kv.2 := le_max_right _ _
      rw [← h] at h1
      exact absurd (le_trans h2 h1) (not_le_of_lt hlt)
    show bestFrom (if b.2 < kv.2 then kv else b) rest = b
    rw [if_neg hle]
    exact ih b (by rwa [max_eq_left (le_of_not_lt hle)] at h)

theorem find?_runningMax (l : List (String × ℚ)) :
    ∀ b, (b :: l).find? (isMaxP (runningMax b.2 l)) = some (bestFrom b l) := by
  induction l with
  | nil =>
    intro b
    rw [List.find?_cons_of_pos _ (by simp [isMaxP, runningMax])]
    rfl
  | cons kv rest ih =>
    intro b
    have hM : runningMax b.2 (kv :: rest) = runningMax (max b.2 kv.2) rest :=
      runningMax_cons b.2 kv rest
    by_cases hlt : b.2 < kv.2
    · -- the new element strictly improves, so `b` cannot attain the maximum
      have hkvM : runningMax b.2 (kv :: rest) = runningMax kv.2 rest := by
        rw [hM, max_eq_right hlt.le]
      have hb2 : b.2 ≠ runningMax b.2 (kv :: rest) := by
        intro hEq
        have h1 : max b.2 kv.2 ≤ runningMax (max b.2 kv.2) rest := le_runningMax _ _
        rw [← hM, ← hEq] at h1
        exact absurd hlt (not_lt_of_le (le_trans (le_max_right b.2 kv.2) h1))
      have hbb : bestFrom b (kv :: rest) = bestFrom kv rest := by
        show bestFrom (if b.2 < kv.2 then kv else b) rest = bestFrom kv rest
        rw [if_pos hlt]
      calc (b :: kv :: rest).find? (isMaxP (runningMax b.2 (kv :: rest)))
          = (kv :: rest).find? (isMaxP (runningMax b.2 (kv :: rest))) :=
            List.find?_cons_of_neg _ (by simp [isMaxP, hb2])
        _ = (kv :: rest).find? (isMaxP (runningMax kv.2 rest)) := by rw [hkvM]
        _ = some (bestFrom kv rest) := ih kv
        _ = some (bestFrom b (kv :: rest)) := by rw [hbb]
    · have hmax : max b.2 kv.2 = b.2 := max_eq_left (le_of_not_lt hlt)
      have hM2 : runningMax b.2 (kv :: rest) = runningMax b.2 rest := by
        rw [hM, hmax]
      have hbb : bestFrom b (kv :: rest) = bestFrom b rest := by
        show bestFrom (if b.2 < kv.2 then kv else b) rest = bestFrom b rest
        rw [if_neg hlt]
      by_cases hbM : b.2 = runningMax b.2 rest
      · -- the head already attains the maximum and wins the tie
        rw [hbb, bestFrom_of_max b rest hbM]
        exact List.find?_cons_of_pos _
          (by simp only [isMaxP, hM2, decide_eq_true_eq]; exact hbM)
      · have hkvne : kv.2 ≠ runningMax b.2 rest := by
          intro hEq
          apply hbM
          have h1 : b.2 ≤ runningMax b.2 rest := le_runningMax _ _
          have h2 : runningMax b.2 rest ≤ b.2 := by
            rw [← hEq]; exact le_of_not_lt hlt
          exact le_antisymm h1 h2
        have h3 := ih b
        rw [List.find?_cons_of_neg _ (by simp [isMaxP, hbM])] at h3
        calc (b :: kv :: rest).find? (isMaxP (runningMax b.2 (kv :: rest)))
            = (kv :: rest).find? (isMaxP (runningMax b.2 (kv :: rest))) :=
              List.find?_cons_of_neg _ (by simp [isMaxP, hM2, hbM])
          _ = rest.find? (isMaxP (runningMax b.2 (kv :: rest))) :=
              List.find?_cons_of_neg _ (by simp [isMaxP, hM2, hkvne])
          _ = rest.find? (isMaxP (runningMax b.2 rest)) := by rw [hM2]
          _ = some (bestFrom b rest) := h3
          _ = some (bestFrom b (kv :: rest)) := by rw [hbb]

/-! ## C3 — normalization law -/

/-- C3 counterexample: the claim demands the empty mapping at
`wordCount == 0`, but `sentiment_analyzer.normalize_scores` returns the
input mapping unchanged there. -/
theorem normalize_scores_zero_counterexample :
    normalize_scores [("positive", (1 : ℚ))] 0 = [("positive", (1 : ℚ))] ∧
    normalize_scores [("positive", (1 : ℚ))] 0 ≠ ([] : List (String × ℚ)) := by
  constructor
  · rfl
  · intro h
    simp [normalize_scores] at h

/-- C3 amended: for `wordCount > 0` both normalization functions map
`k ↦ raw[k] / wordCount` over exactly the keys of `raw`; at
`wordCount == 0`, `sentiment.normalize` returns the empty mapping while
`sentiment_analyzer.normalize_scores` returns the input mapping unchanged. -/
theorem normalization_law_amended (scores : List (String × ℚ)) (wc : Nat)
    (h : 0 < wc) :
    normalize_scores scores wc = scores.map (fun kv => (kv.1, kv.2 / (wc : ℚ))) ∧
    normalize scores wc = scores.map (fun kv => (kv.1, kv.2 / (wc : ℚ))) ∧
    (normalize_scores scores wc).map Prod.fst = scores.map Prod.fst ∧
    normalize_scores scores 0 = scores ∧
    normalize scores 0 = [] := by
  refine ⟨?_, ?_, ?_, ?_, ?_⟩
  · simp [normalize_scores, Nat.pos_iff_ne_zero.mp h]
  · simp [normalize, h]
  · simp [normalize_scores, Nat.pos_iff_ne_zero.mp h]
  · rfl
  · rfl

theorem normalization_law_amended_witness :
    normalize_scores [("positive", (3 : ℚ))] 2
        = [("positive", (3 : ℚ))].map (fun kv => (kv.1, kv.2 / ((2 : Nat) : ℚ))) ∧
    normalize [("positive", (3 : ℚ))] 2
        = [("positive", (3 : ℚ))].map (fun kv => (kv.1, kv.2 / ((2 : Nat) : ℚ))) ∧
    (normalize_scores [("positive", (3 : ℚ))] 2).map Prod.fst
        = [("positive", (3 : ℚ))].map Prod.fst ∧
    normalize_scores [("positive", (3 : ℚ))] 0 = [("positive", (3 : ℚ))] ∧
    normalize [("positive", (3 : ℚ))] 0 = [] :=
  normalization_law_amended [("positive", (3 : ℚ))] 2 (by norm_num)

/-! ## C6 — top-label selection -/

/-- C6: the embedded Python `max(..., default=("unknown", 0))` selection
used by the orchestrators agrees, on every distribution, with the spec's
rule — the first entry, in the distribution's iteration order, whose score
equals the maximum, and `"unknown"` on the empty distribution — and on the
spec's tie-break examples `{a: 0.5, b: 0.5}` / `{b: 0.5, a: 0.5}` it picks
the first-inserted key. -/
theorem top_category_first_max :
    (∀ d : List (String × ℚ), top_category d = specTopLabel d) ∧
    top_category [("a", (1 : ℚ)/2), ("b", (1 : ℚ)/2)] = "a" ∧
    top_category [("b", (1 : ℚ)/2), ("a", (1 : ℚ)/2)] = "b" ∧
    top_category [] = "unknown" := by
  refine ⟨?_, ?_, ?_, rfl⟩
  · intro d
    cases d with
    | nil => rfl
    | cons x xs =>
      show (bestFrom x xs).1
          = (((x :: xs).find? (isMaxP (runningMax x.2 xs))).getD x).1
      rw [find?_runningMax xs x]
      rfl
  · norm_num [top_category, bestFrom]
  · norm_num [top_category, bestFrom]

/-! ## C8 — the clean form -/

theorem head?_dropWhile_ne (p : Char → Bool) (l : List Char) :
    ∀ c ∈ (l.dropWhile p).head?, p c = false := by
  induction l with
  | nil => simp [List.dropWhile]
  | cons d ds ih =>
    by_cases h : p d
    · simpa [List.dropWhile, h] using ih
    · simp [List.dropWhile, h]

/-- No two adjacent space characters occur in the list. -/
def NoTwoSpaces (l : List Char) : Prop :=
  List.Chain' (fun a b => ¬(a = ' ' ∧ b = ' ')) l

theorem subSpaces_head? (l : List Char) : (subSpaces l).head? = l.head? := by
  cases l with
  | nil => simp [subSpaces]
  | cons c cs =>
    by_cases h : c = ' '
    · simp [subSpaces, h]
    · simp [subSpaces, h]

theorem subSpaces_noTwoSpaces (l : List Char) : NoTwoSpaces (subSpaces l) := by
  induction l using subSpaces.induct with
  | case1 => simp [NoTwoSpaces, subSpaces]
  | case2 cs ih =>
    rw [subSpaces, if_pos rfl]
    rw [NoTwoSpaces, List.chain'_cons']
    constructor
    · intro y hy
      rw [subSpaces_head?] at hy
      have hne := head?_dropWhile_ne (fun d => decide (d = ' ')) cs y hy
      simp at hne
      intro hpair
      exact hne hpair.2
    · exact ih
  | case3 c cs h ih =>
    rw [subSpaces, if_neg h]
    rw [NoTwoSpaces, List.chain'_cons']
    exact ⟨fun y _ hpair => h hpair.1, ih⟩

theorem subHttp_head? (l : List Char) : (subHttp l).head? = l.head? := by
  cases l with
  | nil => simp [subHttp]
  | cons c cs =>
    by_cases h : c = 'h' ∧ cs.take 3 = ['t', 't', 'p'] ∧
        (cs.drop 3).takeWhile (fun d => !isWS d) ≠ []
    · rw [subHttp, if_pos h]
      simp [h.1]
    · rw [subHttp, if_neg h]
      simp

theorem subHttp_noTwoSpaces (l : List Char) (hl : NoTwoSpaces l) :
    NoTwoSpaces (subHttp l) := by
  induction l using subHttp.induct with
  | case1 => simpa [subHttp] using hl
  | case2 c cs h ih =>
    rw [subHttp, if_pos h]
    have hsuffix : (cs.drop 3).dropWhile (fun d => !isWS d) <:+ c :: cs := by
      refine List.IsSuffix.trans ?_ (List.suffix_cons c cs)
      exact List.IsSuffix.trans (List.dropWhile_suffix _) (List.drop_suffix 3 cs)
    have hrest : NoTwoSpaces ((cs.drop 3).dropWhile (fun d => !isWS d)) :=
      List.Chain'.suffix hl hsuffix
    have htail := ih hrest
    rw [NoTwoSpaces] at htail ⊢
    rw [List.chain'_cons', List.chain'_cons', List.chain'_cons', List.chain'_cons']
    refine ⟨by simp, by simp, by simp, ?_, htail⟩
    intro y hy hpair
    exact absurd hpair.1 (by decide)
  | case3 c cs h ih =>
    rw [subHttp, if_neg h]
    rw [NoTwoSpaces, List.chain'_cons'] at hl ⊢
    refine ⟨?_, ih hl.2⟩
    intro y hy
    rw [subHttp_head?] at hy
    exact hl.1 y hy

theorem clean_chars_noTwoSpaces (l : List Char) : NoTwoSpaces (clean_chars l) :=
  subHttp_noTwoSpaces _ (subSpaces_noTwoSpaces _)

theorem clean_chars_singleton (c : Char) : clean_chars [c] = [c] := by
  have h1 : subHash [c] = [c] := by simp [subHash]
  have h2 : subAt [c] = [c] := by simp [subAt]
  have h3 : subSpaces [c] = [c] := by
    by_cases h : c = ' '
    · subst h; simp [subSpaces]
    · simp [subSpaces, h]
  have h4 : subHttp [c] = [c] := by simp [subHttp]
  simp [clean_chars, h1, h2, h3, h4]

/-- C8 counterexample: the claim says the clean form has emoji stripped and
leading/trailing whitespace trimmed, but `clean_text`'s clean form keeps
the emoji `'😀'` (U+1F600, inside the stripped-for-lemma ranges) and the
leading space of `" 😀 "`. -/
theorem clean_form_counterexample :
    clean_chars " 😀 ".data = [' ', '😀', ' '] ∧
    isEmoji '😀' = true ∧
    (clean_chars " 😀 ".data).head? = some ' ' := by
  have h : clean_chars " 😀 ".data = [' ', '😀', ' '] := by
    simp [clean_chars, subHash, subAt, subSpaces, subHttp, isWS,
      List.takeWhile, List.dropWhile]
  exact ⟨h, by decide, by rw [h]; rfl⟩

/-- C8 amended: the clean form removes `#`-initiated non-space runs,
replaces `@`-initiated non-space runs by `"@person"`, collapses runs of
space characters to a single space, and collapses `http`-initiated
non-space runs to `"http"` — but performs no emoji stripping and no
trimming (emoji stripping and mention removal apply only to the lemma
input); `char_count` and `word_count` are the character length and the
whitespace-split token count of the clean form. -/
theorem clean_form_amended :
    (∀ (nlp : List Char → String) (text : List Char),
        (clean_text nlp text).clean = clean_chars text ∧
        (clean_text nlp text).lemma_text
          = nlp (deEmojify (subAtDel (clean_chars text))) ∧
        (clean_text nlp text).char_count = (clean_text nlp text).clean.length ∧
        (clean_text nlp text).word_count
          = (pySplit (clean_text nlp text).clean).length) ∧
    (∀ c : Char, clean_chars [c] = [c]) ∧
    (∀ l : List Char, NoTwoSpaces (clean_chars l)) ∧
    clean_chars "see #tag @bob check https://x.y now 😀".data
      = "see @person check http now 😀".data ∧
    clean_chars " a  b ".data = " a b ".data := by
  refine ⟨?_, clean_chars_singleton, clean_chars_noTwoSpaces, ?_, ?_⟩
  · intro nlp text
    exact ⟨rfl, rfl, rfl, rfl⟩
  · simp [clean_chars, subHash, subAt, subSpaces, subHttp, isWS,
      List.takeWhile, List.dropWhile]
  · simp [clean_chars, subHash, subAt, subSpaces, subHttp, isWS,
      List.takeWhile, List.dropWhile]

/-! ## C7 / C10 — lexicon scorer guarantees -/

/-- A floor-and-scale term `max n 1 * (1 + x)` is at least 1 when `0 ≤ x`. -/
theorem one_le_floor_scale (n x : ℚ) (hx : 0 ≤ x) : 1 ≤ max n 1 * (1 + x) := by
  have hm : (1 : ℚ) ≤ max n 1 := le_max_right _ _
  calc (1 : ℚ) = 1 * 1 := by ring
    _ ≤ max n 1 * (1 + x) := by
        exact mul_le_mul hm (by linarith) (by norm_num) (le_trans zero_le_one hm)

theorem emotion_adjusted_pos_eq (text : List Char) (v : Vader)
    (h1 : 1/20 ≤ v.compound) :
    emotion_adjusted text v =
      { joy := max (categoryCount text joy_keywords : ℚ) 1 * (1 + v.pos)
        sadness := (categoryCount text sadness_keywords : ℚ) * (4/5)
        anger := (categoryCount text anger_keywords : ℚ) * (4/5)
        fear := (categoryCount text fear_keywords : ℚ) * (4/5)
        surprise := (categoryCount text surprise_keywords : ℚ)
        other := (categoryCount text other_keywords : ℚ) } := by
  simp only [emotion_adjusted, emotion_base]
  rw [if_pos h1]

theorem emotion_adjusted_neg_eq (text : List Char) (v : Vader)
    (h1 : ¬ 1/20 ≤ v.compound) (h2 : v.compound ≤ -(1/20)) :
    emotion_adjusted text v =
      { joy := (categoryCount text joy_keywords : ℚ) * (4/5)
        sadness := max (categoryCount text sadness_keywords : ℚ) 1 * (1 + v.neg)
        anger := max (categoryCount text anger_keywords : ℚ) 1 * (1 + v.neg)
        fear := max (categoryCount text fear_keywords : ℚ) 1 * (1 + v.neg)
        surprise := (categoryCount text surprise_keywords : ℚ)
        other := (categoryCount text other_keywords : ℚ) } := by
  simp only [emotion_adjusted, emotion_base]
  rw [if_neg h1, if_pos h2]

theorem emotion_adjusted_neu_eq (text : List Char) (v : Vader)
    (h1 : ¬ 1/20 ≤ v.compound) (h2 : ¬ v.compound ≤ -(1/20)) :
    emotion_adjusted text v =
      { joy := (categoryCount text joy_keywords : ℚ)
        sadness := (categoryCount text sadness_keywords : ℚ)
        anger := (categoryCount text anger_keywords : ℚ)
        fear := (categoryCount text fear_keywords : ℚ)
        surprise := (categoryCount text surprise_keywords : ℚ)
        other := max (categoryCount text other_keywords : ℚ) 1 * (1 + v.neu) } := by
  simp only [emotion_adjusted, emotion_base]
  rw [if_neg h1, if_neg h2]

theorem emotion_adjusted_bounds (text : List Char) (v : Vader)
    (hpos : 0 ≤ v.pos) (hneg : 0 ≤ v.neg) (hneu : 0 ≤ v.neu) :
    0 ≤ (emotion_adjusted text v).joy ∧
    0 ≤ (emotion_adjusted text v).sadness ∧
    0 ≤ (emotion_adjusted text v).anger ∧
    0 ≤ (emotion_adjusted text v).fear ∧
    0 ≤ (emotion_adjusted text v).surprise ∧
    0 ≤ (emotion_adjusted text v).other ∧
    1 ≤ emotion_total_raw text v := by
  have cj : (0 : ℚ) ≤ (categoryCount text joy_keywords : ℚ) := Nat.cast_nonneg _
  have cs : (0 : ℚ) ≤ (categoryCount text sadness_keywords : ℚ) := Nat.cast_nonneg _
  have ca : (0 : ℚ) ≤ (categoryCount text anger_keywords : ℚ) := Nat.cast_nonneg _
  have cf : (0 : ℚ) ≤ (categoryCount text fear_keywords : ℚ) := Nat.cast_nonneg _
  have cu : (0 : ℚ) ≤ (categoryCount text surprise_keywords : ℚ) := Nat.cast_nonneg _
  have co : (0 : ℚ) ≤ (categoryCount text other_keywords : ℚ) := Nat.cast_nonneg _
  rw [emotion_total_raw]
  by_cases h1 : 1/20 ≤ v.compound
  · rw [emotion_adjusted_pos_eq text v h1]
    dsimp only
    have hj := one_le_floor_scale (categoryCount text joy_keywords : ℚ) v.pos hpos
    have d1 : (0 : ℚ) ≤ (categoryCount text sadness_keywords : ℚ) * (4/5) :=
      mul_nonneg cs (by norm_num)
    have d2 : (0 : ℚ) ≤ (categoryCount text anger_keywords : ℚ) * (4/5) :=
      mul_nonneg ca (by norm_num)
    have d3 : (0 : ℚ) ≤ (categoryCount text fear_keywords : ℚ) * (4/5) :=
      mul_nonneg cf (by norm_num)
    exact ⟨by linarith, d1, d2, d3, cu, co, by linarith⟩
  · by_cases h2 : v.compound ≤ -(1/20)
    · rw [emotion_adjusted_neg_eq text v h1 h2]
      dsimp only
      have hs := one_le_floor_scale (categoryCount text sadness_keywords : ℚ) v.neg hneg
      have ha := one_le_floor_scale (categoryCount text anger_keywords : ℚ) v.neg hneg
      have hf := one_le_floor_scale (categoryCount text fear_keywords : ℚ) v.neg hneg
      have d1 : (0 : ℚ) ≤ (categoryCount text joy_keywords : ℚ) * (4/5) :=
        mul_nonneg cj (by norm_num)
      exact ⟨d1, by linarith, by linarith, by linarith, cu, co, by linarith⟩
    · rw [emotion_adjusted_neu_eq text v h1 h2]
      dsimp only
      have ho := one_le_floor_scale (categoryCount text other_keywords : ℚ) v.neu hneu
      exact ⟨cj, cs, ca, cf, cu, by linarith, by linarith⟩

theorem hate_adjusted_eq (text : List Char) (v : Vader) :
    hate_adjusted text v =
      { hateful := (categoryCount text hateful_keywords : ℚ) * (1 + v.neg)
        offensive := (categoryCount text offensive_keywords : ℚ) * (1 + v.neg)
        targeted_hate := (categoryCount text targeted_hate_keywords : ℚ) * (1 + v.neg)
        noneCat := (categoryCount text none_keywords : ℚ) * (1 + v.pos) + (1 - v.neg) } := by
  simp only [hate_adjusted, hate_base]

theorem hate_adjusted_nonneg (text : List Char) (v : Vader)
    (hpos : 0 ≤ v.pos) (hneg0 : 0 ≤ v.neg) (hneg1 : v.neg ≤ 1) :
    0 ≤ (hate_adjusted text v).hateful ∧
    0 ≤ (hate_adjusted text v).offensive ∧
    0 ≤ (hate_adjusted text v).targeted_hate ∧
    0 ≤ (hate_adjusted text v).noneCat := by
  have c1 : (0 : ℚ) ≤ (categoryCount text hateful_keywords : ℚ) := Nat.cast_nonneg _
  have c2 : (0 : ℚ) ≤ (categoryCount text offensive_keywords : ℚ) := Nat.cast_nonneg _
  have c3 : (0 : ℚ) ≤ (categoryCount text targeted_hate_keywords : ℚ) := Nat.cast_nonneg _
  have c4 : (0 : ℚ) ≤ (categoryCount text none_keywords : ℚ) := Nat.cast_nonneg _
  rw [hate_adjusted_eq]
  dsimp only
  exact ⟨mul_nonneg c1 (by linarith), mul_nonneg c2 (by linarith),
    mul_nonneg c3 (by linarith),
    add_nonneg (mul_nonneg c4 (by linarith)) (by linarith)⟩

/-- In the low-signal forcing branch the three non-catch-all adjusted counts
are exactly zero: a single keyword hit would already push the total to at
least `1`. -/
theorem hate_forced_zeros (text : List Char) (v : Vader)
    (hpos : 0 ≤ v.pos) (hneg0 : 0 ≤ v.neg) (hneg1 : v.neg ≤ 1)
    (hlt : hate_total_preforce text v < 1/2) :
    (hate_adjusted text v).hateful = 0 ∧
    (hate_adjusted text v).offensive = 0 ∧
    (hate_adjusted text v).targeted_hate = 0 := by
  obtain ⟨h1, h2, h3, h4⟩ := hate_adjusted_nonneg text v hpos hneg0 hneg1
  have hpre : hate_total_preforce text v
      = (hate_adjusted text v).hateful + (hate_adjusted text v).offensive +
        (hate_adjusted text v).targeted_hate + (hate_adjusted text v).noneCat := by
    rw [hate_total_preforce]
  have key : ∀ kws : List String,
      (categoryCount text kws : ℚ) * (1 + v.neg) < 1 →
      (categoryCount text kws : ℚ) * (1 + v.neg) = 0 := by
    intro kws hsmall
    rcases Nat.eq_zero_or_pos (categoryCount text kws) with hz | hp
    · rw [hz]; simp
    · have hge : (1 : ℚ) ≤ (categoryCount text kws : ℚ) := by exact_mod_cast hp
      have : (1 : ℚ) ≤ (categoryCount text kws : ℚ) * (1 + v.neg) := by
        calc (1 : ℚ) = 1 * 1 := by ring
          _ ≤ (categoryCount text kws : ℚ) * (1 + v.neg) :=
            mul_le_mul hge (by linarith) (by norm_num) (by linarith)
      linarith
  rw [hpre] at hlt
  rw [hate_adjusted_eq] at hlt h1 h2 h3 h4 ⊢
  dsimp only at hlt h1 h2 h3 h4 ⊢
  exact ⟨key hateful_keywords (by linarith), key offensive_keywords (by linarith),
    key targeted_hate_keywords (by linarith)⟩

theorem analyze_emotion_eq (sia : List Char → Vader) (text : List Char)
    (h : ¬ emotion_total_raw text (sia text) = 0) :
    analyze_emotion sia text =
      [("joy", (emotion_adjusted text (sia text)).joy / emotion_total_raw text (sia text)),
       ("sadness", (emotion_adjusted text (sia text)).sadness / emotion_total_raw text (sia text)),
       ("anger", (emotion_adjusted text (sia text)).anger / emotion_total_raw text (sia text)),
       ("fear", (emotion_adjusted text (sia text)).fear / emotion_total_raw text (sia text)),
       ("surprise", (emotion_adjusted text (sia text)).surprise / emotion_total_raw text (sia text)),
       ("other", (emotion_adjusted text (sia text)).other / emotion_total_raw text (sia text))] := by
  simp only [analyze_emotion]
  rw [if_neg h]

theorem analyze_hate_speech_eq (sia : List Char → Vader) (text : List Char)
    (h : ¬ (hate_forced text (sia text)).hateful + (hate_forced text (sia text)).offensive +
        (hate_forced text (sia text)).targeted_hate + (hate_forced text (sia text)).noneCat = 0) :
    analyze_hate_speech sia text =
      [("hateful", (hate_forced text (sia text)).hateful /
          ((hate_forced text (sia text)).hateful + (hate_forced text (sia text)).offensive +
           (hate_forced text (sia text)).targeted_hate + (hate_forced text (sia text)).noneCat)),
       ("offensive", (hate_forced text (sia text)).offensive /
          ((hate_forced text (sia text)).hateful + (hate_forced text (sia text)).offensive +
           (hate_forced text (sia text)).targeted_hate + (hate_forced text (sia text)).noneCat)),
       ("targeted_hate", (hate_forced text (sia text)).targeted_hate /
          ((hate_forced text (sia text)).hateful + (hate_forced text (sia text)).offensive +
           (hate_forced text (sia text)).targeted_hate + (hate_forced text (sia text)).noneCat)),
       ("none", (hate_forced text (sia text)).noneCat /
          ((hate_forced text (sia text)).hateful + (hate_forced text (sia text)).offensive +
           (hate_forced text (sia text)).targeted_hate + (hate_forced text (sia text)).noneCat))] := by
  simp only [analyze_hate_speech]
  rw [if_neg h]

/-- C7: for every input text, with the VADER auxiliary scores in their
documented ranges, both lexicon scorers return distributions whose scores
are non-negative and sum exactly to 1 (in exact rational arithmetic); and
whenever the low-signal forcing branch of the risk scorer is taken
(adjusted total below `0.5`), the returned distribution puts mass 1 on the
catch-all `"none"` and 0 on every other category. -/
theorem lexicon_scorer_guarantee (sia : List Char → Vader) (text : List Char)
    (hpos0 : 0 ≤ (sia text).pos) (hpos1 : (sia text).pos ≤ 1)
    (hneg0 : 0 ≤ (sia text).neg) (hneg1 : (sia text).neg ≤ 1)
    (hneu0 : 0 ≤ (sia text).neu) (hneu1 : (sia text).neu ≤ 1)
    (hcmp0 : -1 ≤ (sia text).compound) (hcmp1 : (sia text).compound ≤ 1) :
    (∀ p ∈ analyze_emotion sia text, 0 ≤ p.2) ∧
    ((analyze_emotion sia text).map Prod.snd).sum = 1 ∧
    (∀ p ∈ analyze_hate_speech sia text, 0 ≤ p.2) ∧
    ((analyze_hate_speech sia text).map Prod.snd).sum = 1 ∧
    (hate_total_preforce text (sia text) < 1/2 →
      analyze_hate_speech sia text
        = [("hateful", 0), ("offensive", 0), ("targeted_hate", 0), ("none", 1)]) := by
  obtain ⟨e1, e2, e3, e4, e5, e6, etot⟩ :=
    emotion_adjusted_bounds text (sia text) hpos0 hneg0 hneu0
  have htpos : 0 < emotion_total_raw text (sia text) := by linarith
  have ht0 : ¬ emotion_total_raw text (sia text) = 0 := by
    exact ne_of_gt htpos
  have hesum : (emotion_adjusted text (sia text)).joy +
      (emotion_adjusted text (sia text)).sadness +
      (emotion_adjusted text (sia text)).anger +
      (emotion_adjusted text (sia text)).fear +
      (emotion_adjusted text (sia text)).surprise +
      (emotion_adjusted text (sia text)).other
      = emotion_total_raw text (sia text) := by
    rw [emotion_total_raw]
  obtain ⟨a1, a2, a3, a4⟩ := hate_adjusted_nonneg text (sia text) hpos0 hneg0 hneg1
  -- field values of `hate_forced` in each branch
  by_cases hforce : hate_total_preforce text (sia text) < 1/2
  case neg =>
    have hcf : hate_forced text (sia text) = hate_adjusted text (sia text) := by
      simp only [hate_forced]
      rw [if_neg hforce]
    have hpre : (hate_forced text (sia text)).hateful +
        (hate_forced text (sia text)).offensive +
        (hate_forced text (sia text)).targeted_hate +
        (hate_forced text (sia text)).noneCat = hate_total_preforce text (sia text) := by
      rw [hcf, hate_total_preforce]
    have hTpos : 0 < (hate_forced text (sia text)).hateful +
        (hate_forced text (sia text)).offensive +
        (hate_forced text (sia text)).targeted_hate +
        (hate_forced text (sia text)).noneCat := by
      rw [hpre]
      have := le_of_not_lt hforce
      linarith
    have hT0 : ¬ (hate_forced text (sia text)).hateful +
        (hate_forced text (sia text)).offensive +
        (hate_forced text (sia text)).targeted_hate +
        (hate_forced text (sia text)).noneCat = 0 := ne_of_gt hTpos
    refine ⟨?_, ?_, ?_, ?_, fun h => absurd h hforce⟩
    · intro p hp
      rw [analyze_emotion_eq sia text ht0] at hp
      simp only [List.mem_cons, List.not_mem_nil, or_false] at hp
      rcases hp with h | h | h | h | h | h <;> rw [h] <;>
        exact div_nonneg (by assumption) htpos.le
    · rw [analyze_emotion_eq sia text ht0]
      simp only [List.map_cons, List.map_nil, List.sum_cons, List.sum_nil]
      field_simp
      linarith
    · intro p hp
      rw [analyze_hate_speech_eq sia text hT0] at hp
      simp only [List.mem_cons, List.not_mem_nil, or_false] at hp
      rcases hp with h | h | h | h <;> rw [h] <;> rw [hcf] <;>
        apply div_nonneg (by assumption) <;> rw [← hcf] <;> exact hTpos.le
    · rw [analyze_hate_speech_eq sia text hT0]
      simp only [List.map_cons, List.map_nil, List.sum_cons, List.sum_nil]
      field_simp
      ring
  case pos =>
    obtain ⟨z1, z2, z3⟩ := hate_forced_zeros text (sia text) hpos0 hneg0 hneg1 hforce
    have f1 : (hate_forced text (sia text)).hateful = 0 := by
      simp only [hate_forced]
      rw [if_pos hforce]
      exact z1
    have f2 : (hate_forced text (sia text)).offensive = 0 := by
      simp only [hate_forced]
      rw [if_pos hforce]
      exact z2
    have f3 : (hate_forced text (sia text)).targeted_hate = 0 := by
      simp only [hate_forced]
      rw [if_pos hforce]
      exact z3
    have f4 : (hate_forced text (sia text)).noneCat = 1 := by
      simp only [hate_forced]
      rw [if_pos hforce]
    have hT0 : ¬ (hate_forced text (sia text)).hateful +
        (hate_forced text (sia text)).offensive +
        (hate_forced text (sia text)).targeted_hate +
        (hate_forced text (sia text)).noneCat = 0 := by
      rw [f1, f2, f3, f4]
      norm_num
    have hres : analyze_hate_speech sia text
        = [("hateful", 0), ("offensive", 0), ("targeted_hate", 0), ("none", 1)] := by
      rw [analyze_hate_speech_eq sia text hT0, f1, f2, f3, f4]
      norm_num
    refine ⟨?_, ?_, ?_, ?_, fun _ => hres⟩
    · intro p hp
      rw [analyze_emotion_eq sia text ht0] at hp
      simp only [List.mem_cons, List.not_mem_nil, or_false] at hp
      rcases hp with h | h | h | h | h | h <;> rw [h] <;>
        exact div_nonneg (by assumption) htpos.le
    · rw [analyze_emotion_eq sia text ht0]
      simp only [List.map_cons, List.map_nil, List.sum_cons, List.sum_nil]
      field_simp
      linarith
    · intro p hp
      rw [hres] at hp
      simp only [List.mem_cons, List.not_mem_nil, or_false] at hp
      rcases hp with h | h | h | h <;> rw [h] <;> norm_num
    · rw [hres]
      simp

theorem lexicon_scorer_guarantee_witness :
    ((analyze_emotion (fun _ => ⟨0, 0, 1, 0⟩) "".data).map Prod.snd).sum = 1 ∧
    ((analyze_hate_speech (fun _ => ⟨0, 0, 1, 0⟩) "".data).map Prod.snd).sum = 1 :=
  ⟨(lexicon_scorer_guarantee (fun _ => ⟨0, 0, 1, 0⟩) "".data
      (by norm_num) (by norm_num) (by norm_num) (by norm_num)
      (by norm_num) (by norm_num) (by norm_num) (by norm_num)).2.1,
   (lexicon_scorer_guarantee (fun _ => ⟨0, 0, 1, 0⟩) "".data
      (by norm_num) (by norm_num) (by norm_num) (by norm_num)
      (by norm_num) (by norm_num) (by norm_num) (by norm_num)).2.2.2.1⟩

/-- C10: with the VADER scores in range, every branch of the emotion
scorer's valence adjustment floors one category to at least 1 and scales it
by a factor at least 1, so the adjusted total is at least 1 and the
zero-total fallback (`sum(...) or 1`) in the final division never fires. -/
theorem emotion_total_fallback_unreachable (sia : List Char → Vader)
    (text : List Char)
    (hpos : 0 ≤ (sia text).pos) (hneg : 0 ≤ (sia text).neg)
    (hneu : 0 ≤ (sia text).neu) :
    1 ≤ emotion_total_raw text (sia text) ∧
    (if emotion_total_raw text (sia text) = 0 then 1
     else emotion_total_raw text (sia text)) = emotion_total_raw text (sia text) := by
  obtain ⟨_, _, _, _, _, _, etot⟩ :=
    emotion_adjusted_bounds text (sia text) hpos hneg hneu
  exact ⟨etot, if_neg (by intro h; rw [h] at etot; norm_num at etot)⟩

theorem emotion_total_fallback_unreachable_witness :
    1 ≤ emotion_total_raw "".data ((fun _ => (⟨0, 0, 1, 0⟩ : Vader)) "".data) ∧
    (if emotion_total_raw "".data ((fun _ => (⟨0, 0, 1, 0⟩ : Vader)) "".data) = 0 then 1
     else emotion_total_raw "".data ((fun _ => (⟨0, 0, 1, 0⟩ : Vader)) "".data))
      = emotion_total_raw "".data ((fun _ => (⟨0, 0, 1, 0⟩ : Vader)) "".data) :=
  emotion_total_fallback_unreachable (fun _ => ⟨0, 0, 1, 0⟩) "".data
    (by norm_num) (by norm_num) (by norm_num)

/-! ## C4 / C9 — empty-text behavior of the driver and the backfill -/

/-- C9: for an item whose text is empty or whitespace-only, the backfill's
per-item body still constructs (and stages) a record: zeroed cleaned-text
fields, all six distributions empty, and all three top labels `"unknown"`.
Quantifying over the external models shows none of them is consulted. -/
theorem empty_text_record_persisted (roberta : List Char → List (String × ℚ))
    (sia : List Char → Vader) (nlp : List Char → String) (t : Int)
    (item : RawItem) (h : pyStripEmpty item.text = true) :
    buildRecord roberta sia nlp t item =
      { item_id := item.id
        clean_text := []
        lemma_text := ""
        char_count := 0
        word_count := 0
        sentiment_scores := []
        emotion_scores := []
        hate_speech_scores := []
        normalized_sentiment := []
        normalized_emotion := []
        normalized_hate_speech := []
        top_sentiment := "unknown"
        top_emotion := "unknown"
        top_hate_category := "unknown"
        created_utc := item.created_utc
        analyzed_utc := t } ∧
    processPage (fun it => some (buildRecord roberta sia nlp t it)) [item]
      = [buildRecord roberta sia nlp t item] := by
  constructor
  · simp [buildRecord, analyze_text, h, emptyAnalysis, top_category]
  · rfl

theorem empty_text_record_persisted_witness :
    buildRecord (fun _ => []) (fun _ => ⟨0, 0, 0, 0⟩) (fun _ => "") 5
        ⟨1, "  ".data, 3⟩ =
      { item_id := 1
        clean_text := []
        lemma_text := ""
        char_count := 0
        word_count := 0
        sentiment_scores := []
        emotion_scores := []
        hate_speech_scores := []
        normalized_sentiment := []
        normalized_emotion := []
        normalized_hate_speech := []
        top_sentiment := "unknown"
        top_emotion := "unknown"
        top_hate_category := "unknown"
        created_utc := 3
        analyzed_utc := 5 } ∧
    processPage
        (fun it => some (buildRecord (fun _ => []) (fun _ => ⟨0, 0, 0, 0⟩)
          (fun _ => "") 5 it)) [⟨1, "  ".data, 3⟩]
      = [buildRecord (fun _ => []) (fun _ => ⟨0, 0, 0, 0⟩) (fun _ => "") 5
          ⟨1, "  ".data, 3⟩] :=
  empty_text_record_persisted (fun _ => []) (fun _ => ⟨0, 0, 0, 0⟩)
    (fun _ => "") 5 ⟨1, "  ".data, 3⟩ (by decide)

/-- C4 counterexample: the claim says the backfill creates no record for an
empty-text item, but running the per-item loop on a one-item page whose
text is `""` stages exactly one record. -/
theorem empty_text_no_record_counterexample :
    pyStripEmpty "".data = true ∧
    (processPage
        (fun it => some (buildRecord (fun _ => []) (fun _ => ⟨0, 0, 0, 0⟩)
          (fun _ => "") 7 it)) [⟨1, "".data, 0⟩]).length = 1 :=
  ⟨rfl, rfl⟩

/-- C4 amended: empty (or whitespace-only) input yields the zeroed
`CleanedText` and no scoring provider is invoked (the result does not
depend on the external models) — but the backfill still persists a record
for the item (with empty distributions and `"unknown"` labels) rather than
leaving it unanalyzed. -/
theorem empty_text_amended (r1 r2 : List Char → List (String × ℚ))
    (s1 s2 : List Char → Vader) (n1 n2 : List Char → String)
    (text : List Char) (h : pyStripEmpty text = true) :
    analyze_text r1 s1 n1 text = emptyAnalysis ∧
    analyze_text r1 s1 n1 text = analyze_text r2 s2 n2 text ∧
    (analyze_text r1 s1 n1 text).cleaned
      = { clean := [], lemma_text := "", char_count := 0, word_count := 0 } ∧
    ∀ (t : Int) (item : RawItem), item.text = text →
      processPage (fun it => some (buildRecord r1 s1 n1 t it)) [item]
        = [buildRecord r1 s1 n1 t item] := by
  have h1 : analyze_text r1 s1 n1 text = emptyAnalysis := by
    simp [analyze_text, h]
  have h2 : analyze_text r2 s2 n2 text = emptyAnalysis := by
    simp [analyze_text, h]
  exact ⟨h1, h1.trans h2.symm, by rw [h1]; rfl, fun t item _ => rfl⟩

theorem empty_text_amended_witness :
    analyze_text (fun _ => []) (fun _ => ⟨0, 0, 0, 0⟩) (fun _ => "") "".data
      = emptyAnalysis ∧
    processPage
        (fun it => some (buildRecord (fun _ => []) (fun _ => ⟨0, 0, 0, 0⟩)
          (fun _ => "") 7 it)) [⟨1, "".data, 0⟩]
      = [buildRecord (fun _ => []) (fun _ => ⟨0, 0, 0, 0⟩) (fun _ => "") 7
          ⟨1, "".data, 0⟩] :=
  ⟨(empty_text_amended (fun _ => []) (fun _ => []) (fun _ => ⟨0, 0, 0, 0⟩)
      (fun _ => ⟨0, 0, 0, 0⟩) (fun _ => "") (fun _ => "") "".data rfl).1,
   (empty_text_amended (fun _ => []) (fun _ => []) (fun _ => ⟨0, 0, 0, 0⟩)
      (fun _ => ⟨0, 0, 0, 0⟩) (fun _ => "") (fun _ => "") "".data rfl).2.2.2
      7 ⟨1, "".data, 0⟩ rfl⟩

/-! ## C5 — failure isolation in the per-item loop -/

theorem length_filterMap_of_all_some (f : RawItem → Option SentimentRecord)
    (l : List RawItem) (h : ∀ x ∈ l, (f x).isSome) :
    (l.filterMap f).length = l.length := by
  induction l with
  | nil => rfl
  | cons a as ih =>
    have ha : (f a).isSome := h a (List.mem_cons_self a as)
    obtain ⟨r, hr⟩ := Option.isSome_iff_exists.mp ha
    rw [List.filterMap_cons_some hr]
    simp only [List.length_cons]
    rw [ih (fun x hx => h x (List.mem_cons_of_mem a hx))]

/-- C5: in a page where exactly one item's analysis raises (modelled by the
analyzer returning `none` for it), that item stages no record, every other
item of the page is analyzed and staged, and the loop runs to completion
(the processor is a total function — the `except` swallows the error). -/
theorem failure_isolation (f : RawItem → Option SentimentRecord)
    (pre post : List RawItem) (bad : RawItem)
    (hbad : f bad = none)
    (hok : ∀ x ∈ pre ++ post, (f x).isSome) :
    processPage f (pre ++ bad :: post) = processPage f (pre ++ post) ∧
    (processPage f (pre ++ bad :: post)).length = pre.length + post.length ∧
    ∀ x ∈ pre ++ post, ∃ r, f x = some r ∧
      r ∈ processPage f (pre ++ bad :: post) := by
  have heq : processPage f (pre ++ bad :: post) = processPage f (pre ++ post) := by
    simp only [processPage, List.filterMap_append]
    rw [List.filterMap_cons_none hbad]
  refine ⟨heq, ?_, ?_⟩
  · rw [heq, processPage, length_filterMap_of_all_some f (pre ++ post) hok]
    exact List.length_append pre post
  · intro x hx
    obtain ⟨r, hr⟩ := Option.isSome_iff_exists.mp (hok x hx)
    refine ⟨r, hr, ?_⟩
    rw [heq]
    exact List.mem_filterMap.mpr ⟨x, hx, hr⟩

theorem failure_isolation_witness :
    (processPage
        (fun it => if it.id = 6 then none
          else some ⟨it.id, [], "", 0, 0, [], [], [], [], [], [], "u", "u", "u", 0, 0⟩)
        ([⟨0, [], 0⟩, ⟨1, [], 0⟩, ⟨2, [], 0⟩, ⟨3, [], 0⟩, ⟨4, [], 0⟩, ⟨5, [], 0⟩] ++
          (⟨6, [], 0⟩ : RawItem) ::
          [⟨7, [], 0⟩, ⟨8, [], 0⟩, ⟨9, [], 0⟩, ⟨10, [], 0⟩, ⟨11, [], 0⟩, ⟨12, [], 0⟩,
           ⟨13, [], 0⟩, ⟨14, [], 0⟩, ⟨15, [], 0⟩, ⟨16, [], 0⟩, ⟨17, [], 0⟩,
           ⟨18, [], 0⟩, ⟨19, [], 0⟩])).length
      = 6 + 13 :=
  (failure_isolation
    (fun it => if it.id = 6 then none
      else some ⟨it.id, [], "", 0, 0, [], [], [], [], [], [], "u", "u", "u", 0, 0⟩)
    [⟨0, [], 0⟩, ⟨1, [], 0⟩, ⟨2, [], 0⟩, ⟨3, [], 0⟩, ⟨4, [], 0⟩, ⟨5, [], 0⟩]
    [⟨7, [], 0⟩, ⟨8, [], 0⟩, ⟨9, [], 0⟩, ⟨10, [], 0⟩, ⟨11, [], 0⟩, ⟨12, [], 0⟩,
     ⟨13, [], 0⟩, ⟨14, [], 0⟩, ⟨15, [], 0⟩, ⟨16, [], 0⟩, ⟨17, [], 0⟩,
     ⟨18, [], 0⟩, ⟨19, [], 0⟩]
    ⟨6, [], 0⟩ rfl (by decide)).2.1

/-! ## C1 — backfill idempotence -/

theorem mem_unanalyzed {s : Corpus} {i : Nat} :
    i ∈ unanalyzed s ↔ i ∈ s.items ∧ i ∉ s.recs := by
  simp [unanalyzed]

theorem pageLoop_of_unanalyzed_nil (fuel b offset : Nat) (s : Corpus)
    (h : unanalyzed s = []) : pageLoop fuel b offset s = s := by
  cases fuel with
  | zero => rfl
  | succ n => simp [pageLoop, fetchPage, h]

theorem pageLoopC_of_unanalyzed_nil (fuel b offset total : Nat) (s : Corpus)
    (h : unanalyzed s = []) : pageLoopC fuel b offset total s = s := by
  cases fuel with
  | zero => rfl
  | succ n =>
    by_cases ho : offset < total
    · simp [pageLoopC, fetchPage, h, ho]
    · simp [pageLoopC, ho]

/-- After committing records for every currently-unanalyzed item, the
anti-join returns nothing. -/
theorem unanalyzed_after_commit_all (s : Corpus) :
    unanalyzed ⟨s.items, s.recs ++ unanalyzed s⟩ = [] := by
  apply List.filter_eq_nil_iff.mpr
  intro i hi
  simp only [Bool.not_eq_true, Bool.not_not]
  by_cases hm : i ∈ s.recs
  · simp [hm]
  · have : i ∈ unanalyzed s := mem_unanalyzed.mpr ⟨hi, hm⟩
    simp [this]

/-- C1 counterexample: a corpus of two unanalyzed items with `batch_size 1`
and no concurrent inserts.  The first run commits a record for one item and
then, because the offset advances over the shrinking anti-join result,
fetches an empty page and stops; the second run creates one additional
record — not zero. -/
theorem backfill_not_idempotent_counterexample :
    (analyze_posts_run 1 ⟨[1, 2], []⟩).recs.length = 1 ∧
    (analyze_posts_run 1 (analyze_posts_run 1 ⟨[1, 2], []⟩)).recs.length = 2 := by
  constructor
  · rfl
  · rfl

/-- C1 amended: a second run with no new items creates zero additional
records provided the unanalyzed backlog of the first run fits into a single
batch (for `analyze_comments` also within its `max_comments` cap); in
general the offset pagination over the shrinking anti-join result makes one
run skip still-unanalyzed items, which later runs then pick up. -/
theorem pageLoop_succ (n b offset : Nat) (s : Corpus) :
    pageLoop (n + 1) b offset s =
      if fetchPage s b offset = [] then s
      else pageLoop n b (offset + b) ⟨s.items, s.recs ++ fetchPage s b offset⟩ := rfl

theorem pageLoopC_succ (n b offset total : Nat) (s : Corpus) :
    pageLoopC (n + 1) b offset total s =
      if offset < total then
        if fetchPage s b offset = [] then s
        else pageLoopC n b (offset + b) total ⟨s.items, s.recs ++ fetchPage s b offset⟩
      else s := rfl

theorem backfill_idempotent_amended (s : Corpus) (b maxc : Nat)
    (hb : (unanalyzed s).length ≤ b) (hmaxc : (unanalyzed s).length ≤ maxc) :
    analyze_posts_run b (analyze_posts_run b s) = analyze_posts_run b s ∧
    analyze_comments_run b maxc (analyze_comments_run b maxc s)
      = analyze_comments_run b maxc s := by
  by_cases hu : unanalyzed s = []
  · -- no unanalyzed items at all: both runs are identities
    have hposts : analyze_posts_run b s = s :=
      pageLoop_of_unanalyzed_nil _ b 0 s hu
    have hcomm : analyze_comments_run b maxc s = s := by
      simp only [analyze_comments_run, hu]
      simp
    rw [hposts, hcomm, hposts, hcomm]
    exact ⟨rfl, rfl⟩
  · -- nonempty backlog that fits in one page
    have hitems : s.items ≠ [] := by
      intro hempty
      apply hu
      rw [unanalyzed, hempty]
      rfl
    obtain ⟨n, hn⟩ : ∃ n, s.items.length = n + 1 := by
      cases hlen : s.items.length with
      | zero => exact absurd (List.length_eq_zero.mp hlen) hitems
      | succ k => exact ⟨k, rfl⟩
    have hfetch0 : fetchPage s b 0 = unanalyzed s := by
      rw [fetchPage, List.drop_zero]
      exact List.take_of_length_le hb
    have hfne : fetchPage s b 0 ≠ [] := by rw [hfetch0]; exact hu
    have hs' : unanalyzed ⟨s.items, s.recs ++ fetchPage s b 0⟩ = [] := by
      rw [hfetch0]
      exact unanalyzed_after_commit_all s
    -- the posts loop: one full page, then the empty-page break
    have hposts : analyze_posts_run b s = ⟨s.items, s.recs ++ fetchPage s b 0⟩ := by
      rw [analyze_posts_run, hn, pageLoop_succ, if_neg hfne]
      exact pageLoop_of_unanalyzed_nil _ b (0 + b) _ hs'
    have hposts2 : analyze_posts_run b ⟨s.items, s.recs ++ fetchPage s b 0⟩
        = ⟨s.items, s.recs ++ fetchPage s b 0⟩ :=
      pageLoop_of_unanalyzed_nil _ b 0 _ hs'
    -- the comments loop: the capped total is the backlog length, one page covers it
    have htotal : min (unanalyzed s).length maxc = (unanalyzed s).length :=
      min_eq_left hmaxc
    have htpos : 0 < (unanalyzed s).length :=
      List.length_pos.mpr hu
    have hcomm : analyze_comments_run b maxc s
        = ⟨s.items, s.recs ++ fetchPage s b 0⟩ := by
      simp only [analyze_comments_run, htotal]
      rw [if_neg (Nat.pos_iff_ne_zero.mp htpos), hn, pageLoopC_succ,
        if_pos htpos, if_neg hfne, pageLoopC_succ,
        if_neg (by omega : ¬ 0 + b < (unanalyzed s).length)]
    have hcomm2 : analyze_comments_run b maxc ⟨s.items, s.recs ++ fetchPage s b 0⟩
        = ⟨s.items, s.recs ++ fetchPage s b 0⟩ := by
      simp only [analyze_comments_run, hs']
      simp
    rw [hposts, hcomm, hposts2, hcomm2]
    exact ⟨rfl, rfl⟩

theorem backfill_idempotent_amended_witness :
    analyze_posts_run 2 (analyze_posts_run 2 ⟨[1, 2], []⟩)
      = analyze_posts_run 2 ⟨[1, 2], []⟩ ∧
    analyze_comments_run 2 500 (analyze_comments_run 2 500 ⟨[1, 2], []⟩)
      = analyze_comments_run 2 500 ⟨[1, 2], []⟩ :=
  backfill_idempotent_amended ⟨[1, 2], []⟩ 2 500 (by decide) (by decide)

/-! ## C2 — exactly-once invariant -/

theorem fetchPage_sublist (s : Corpus) (b offset : Nat) :
    List.Sublist (fetchPage s b offset) (unanalyzed s) :=
  List.Sublist.trans (List.take_sublist _ _) (List.drop_sublist _ _)

theorem commit_page_inv (s : Corpus) (page : List Nat)
    (hpage : List.Sublist page (unanalyzed s)) (h : CorpusInv s) :
    CorpusInv ⟨s.items, s.recs ++ page⟩ := by
  obtain ⟨hitems, hrecs, href⟩ := h
  have hmem : ∀ x ∈ page, x ∈ s.items ∧ x ∉ s.recs := by
    intro x hx
    exact mem_unanalyzed.mp (hpage.subset hx)
  refine ⟨hitems, ?_, ?_⟩
  · rw [List.nodup_append]
    refine ⟨hrecs, ?_, ?_⟩
    · exact (hpage.trans (List.filter_sublist _)).nodup hitems
    · intro a ha hamem
      exact (hmem a hamem).2 ha
  · intro i hi
    rcases List.mem_append.mp hi with hl | hr
    · exact href i hl
    · exact (hmem i hr).1

theorem pageLoop_inv (fuel : Nat) (b offset : Nat) (s : Corpus)
    (h : CorpusInv s) : CorpusInv (pageLoop fuel b offset s) := by
  induction fuel generalizing offset s with
  | zero => exact h
  | succ n ih =>
    rw [pageLoop_succ]
    by_cases hp : fetchPage s b offset = []
    · rw [if_pos hp]; exact h
    · rw [if_neg hp]
      exact ih (offset + b) _ (commit_page_inv s _ (fetchPage_sublist s b offset) h)

theorem pageLoopC_inv (fuel : Nat) (b offset total : Nat) (s : Corpus)
    (h : CorpusInv s) : CorpusInv (pageLoopC fuel b offset total s) := by
  induction fuel generalizing offset s with
  | zero => exact h
  | succ n ih =>
    rw [pageLoopC_succ]
    by_cases ho : offset < total
    · rw [if_pos ho]
      by_cases hp : fetchPage s b offset = []
      · rw [if_pos hp]; exact h
      · rw [if_neg hp]
        exact ih (offset + b) _ (commit_page_inv s _ (fetchPage_sublist s b offset) h)
    · rw [if_neg ho]; exact h

theorem analyze_comments_run_inv (b maxc : Nat) (s : Corpus)
    (h : CorpusInv s) : CorpusInv (analyze_comments_run b maxc s) := by
  simp only [analyze_comments_run]
  split_ifs
  · exact h
  · exact pageLoopC_inv _ b 0 _ s h

/-- Every reachable store state satisfies the store invariant. -/
theorem reachable_inv (s : Corpus) (h : Reachable s) : CorpusInv s := by
  induction h with
  | init => exact ⟨List.nodup_nil, List.nodup_nil, by simp⟩
  | addItem pre post recs i hr hni ih =>
    obtain ⟨hitems, hrecs, href⟩ := ih
    refine ⟨List.nodup_middle.mpr (List.nodup_cons.mpr ⟨hni, hitems⟩), hrecs, ?_⟩
    intro j hj
    have := href j hj
    simp only [List.mem_append, List.mem_cons] at this ⊢
    tauto
  | backfillPosts b s hr ih => exact pageLoop_inv _ b 0 s ih
  | backfillPostsPartial fuel b offset s hr ih => exact pageLoop_inv fuel b offset s ih
  | backfillComments b maxc s hr ih => exact analyze_comments_run_inv b maxc s ih
  | backfillCommentsPartial fuel b offset total s hr ih =>
    exact pageLoopC_inv fuel b offset total s ih

/-- C2: in every reachable store state, at most one analysis record exists
per item id, and inserting a record for an item that already has one is
rejected by the unique constraint. -/
theorem exactly_once_invariant (s : Corpus) (h : Reachable s) (i : Nat) :
    s.recs.count i ≤ 1 ∧ (i ∈ s.recs → insertRecord s i = none) := by
  have hinv := reachable_inv s h
  constructor
  · exact List.nodup_iff_count_le_one.mp hinv.2.1 i
  · intro hm
    rw [insertRecord, if_pos (by simpa using hm)]

theorem exactly_once_invariant_witness :
    (analyze_posts_run 1 ⟨[5], []⟩).recs.count 5 ≤ 1 ∧
    (5 ∈ (analyze_posts_run 1 ⟨[5], []⟩).recs →
      insertRecord (analyze_posts_run 1 ⟨[5], []⟩) 5 = none) :=
  exactly_once_invariant _
    (Reachable.backfillPosts 1 _
      (Reachable.addItem [] [] [] 5 Reachable.init (by simp))) 5

end RedditSentiment
